import Mathlib

set_option maxRecDepth 100000

/-!
# pyColumnDB — verification of the spec against the code

Shallow embedding of the `pyColumnDB` repository: the Python wrapper
`columndb/__init__.py` (the code under `src/`) together with the C storage
backend (`src/column_db.c`, `src/columndb_extension.c`, referenced by
`setup.py` but not shipped under `src/`), which is modelled from the spec
(§4.1–§4.3, §6).

Conventions of the embedding:
- Python byte/character strings that flow into the binary file format
  (column names, string cell values, file contents) are modelled as
  `List Nat` of byte values; file paths, which never enter the codec, stay
  `String`.
- Machine integers are `Int` with explicit range conditions; float values
  are carried as their IEEE-754 bit patterns (`Nat` below `2^32`/`2^64`) —
  the file codec stores them bit-exactly as opaque payloads, and no float
  arithmetic occurs anywhere in the modelled code.
- Fallible operations return `Except`; a Python method that can both
  mutate and raise is modelled as returning the pair of its outcome and
  the post-call state.
-/

/-- The `DataType` enumeration of `columndb/__init__.py` (INT32=0, INT64=1,
FLOAT32=2, FLOAT64=3, STRING=4, BOOL=5). -/
inductive DataType
  | int32
  | int64
  | float32
  | float64
  | string
  | bool_
deriving DecidableEq, Repr

/-- Numeric tag of a `DataType`, matching the enumeration constants 0..5. -/
def DataType.toTag : DataType → Nat
  | .int32 => 0
  | .int64 => 1
  | .float32 => 2
  | .float64 => 3
  | .string => 4
  | .bool_ => 5

/-- Inverse of `DataType.toTag` on integer tags: `some` exactly on 0..5. -/
def tagToType : Int → Option DataType
  | 0 => some .int32
  | 1 => some .int64
  | 2 => some .float32
  | 3 => some .float64
  | 4 => some .string
  | 5 => some .bool_
  | _ => none

/-- A stored (non-NULL) cell value.  Integers carry their mathematical
value, floats their IEEE-754 bit pattern, strings their UTF-8 bytes. -/
inductive Value
  | i32 (v : Int)
  | i64 (v : Int)
  | f32 (bits : Nat)
  | f64 (bits : Nat)
  | str (s : List Nat)
  | b (v : Bool)
deriving DecidableEq, Repr

/-- A cell is a value or NULL; spec §3: per-column presence flags with a
placeholder for NULL slots, modelled as `Option Value`. -/
abbrev Cell := Option Value

/-- Modelled from the spec (§3 Column): a named, typed column owning its
ordered cell sequence.  The C struct behind `column_db.c` is absent from
`src/`. -/
structure Col where
  name : List Nat
  dtype : DataType
  cells : List Cell
deriving DecidableEq, Repr

/-- Modelled from the spec (§3 Database): the backend database is the
ordered list of its columns (insertion order preserved). -/
abbrev Backend := List Col

/-- Spec §7 error taxonomy of the storage engine. -/
inductive BErr
  | duplicateColumn
  | invalidType
  | unknownColumn
  | typeMismatch
  | corruptData
  | fileNotFound
deriving DecidableEq, Repr

/-- Does a non-NULL value match a column type and fit its representable
range?  Spec §4.2: a value must be convertible to the column type without
information loss; spec §4.1 fixes the widths (int32/int64 two's
complement, float32/float64 bit patterns, strings up to `2^32 - 1`
bytes). -/
def valOK : DataType → Value → Bool
  | .int32, .i32 v => decide (-(2 ^ 31) ≤ v ∧ v < 2 ^ 31)
  | .int64, .i64 v => decide (-(2 ^ 63) ≤ v ∧ v < 2 ^ 63)
  | .float32, .f32 bits => decide (bits < 2 ^ 32)
  | .float64, .f64 bits => decide (bits < 2 ^ 64)
  | .string, .str s => decide (s.length < 2 ^ 32)
  | .bool_, .b _ => true
  | _, _ => false

/-- A cell is well formed for a type when NULL or a matching in-range
value. -/
def cellOK (dt : DataType) : Cell → Bool
  | none => true
  | some v => valOK dt v

/-- Modelled from the spec (§4.2 `add_column` of the C backend, absent from
`src/`): fails with `DuplicateColumn` if the name is present, with
`InvalidType` if the tag is outside 0..5, otherwise appends an empty
column at the end. -/
def backendAddColumn (db : Backend) (name : List Nat) (tag : Int) : Except BErr Backend :=
  if db.any (fun c => c.name = name) then .error .duplicateColumn
  else
    match tagToType tag with
    | none => .error .invalidType
    | some dt => .ok (db ++ [⟨name, dt, []⟩])

/-- Modelled from the spec (§4.2 `insert` of the C backend, absent from
`src/`; the per-type entry points `insert_int32` … `insert_bool` of the
extension are unified over the `Value` sum): fails with `UnknownColumn` if
the name is absent, with `TypeMismatch` if the value does not match the
column type or is not representable, otherwise appends presence=true plus
the value. -/
def backendInsertVal (db : Backend) (name : List Nat) (v : Value) : Except BErr Backend :=
  match db with
  | [] => .error .unknownColumn
  | c :: rest =>
    if c.name = name then
      if valOK c.dtype v then .ok ({ c with cells := c.cells ++ [some v] } :: rest)
      else .error .typeMismatch
    else
      (backendInsertVal rest name v).map (fun r => c :: r)

/-- Modelled from the spec (§4.2, `insert_null` of the extension, absent
from `src/`): appends a presence=false entry with a placeholder value. -/
def backendInsertNull (db : Backend) (name : List Nat) : Except BErr Backend :=
  match db with
  | [] => .error .unknownColumn
  | c :: rest =>
    if c.name = name then .ok ({ c with cells := c.cells ++ [none] } :: rest)
    else (backendInsertNull rest name).map (fun r => c :: r)

/-- Modelled from the spec (§4.2 `get_column_data` of the C backend, absent
from `src/`): the full cell sequence of the named column, NULLs decoded as
`none`; `UnknownColumn` if absent. -/
def backendGetColumnData (db : Backend) (name : List Nat) : Except BErr (List Cell) :=
  match db with
  | [] => .error .unknownColumn
  | c :: rest => if c.name = name then .ok c.cells else backendGetColumnData rest name

/-- Modelled from the spec (§9: the backend exposes its ordered column
names, as the wrapper's `to_dict`/`get_schema` fallbacks and the shipped
`file_persistence.py` example rely on; the C source is absent from
`src/`). -/
def backendGetColumnNames (db : Backend) : List (List Nat) :=
  db.map (fun c => c.name)

/-- Find a column by name (helper for stating absence/presence). -/
def findCol (db : Backend) (name : List Nat) : Option Col :=
  db.find? (fun c => c.name = name)

/-! ## File Codec (spec §4.1, §4.3), modelled from the spec -/

/-- Little-endian 4-byte encoding of an unsigned 32-bit quantity (spec
§4.1: fixed-size little-endian layout). -/
def u32bytes (n : Nat) : List Nat :=
  [n % 256, n / 256 % 256, n / 2 ^ 16 % 256, n / 2 ^ 24 % 256]

/-- Little-endian 8-byte encoding of an unsigned 64-bit quantity. -/
def u64bytes (n : Nat) : List Nat :=
  u32bytes (n % 2 ^ 32) ++ u32bytes (n / 2 ^ 32)

/-- Two's-complement bit pattern of a signed value in a `2^w`-sized
space. -/
def twosComp (w : Nat) (v : Int) : Nat :=
  (v % (2 ^ w : Int)).toNat

/-- Modelled from the spec (§4.1 Value Codec `encode`, C source absent
from `src/`): fixed little-endian layouts for scalars, a 4-byte length
prefix plus raw bytes for strings, one byte for booleans. -/
def encodeValue : Value → List Nat
  | .i32 v => u32bytes (twosComp 32 v)
  | .i64 v => u64bytes (twosComp 64 v)
  | .f32 bits => u32bytes bits
  | .f64 bits => u64bytes bits
  | .str s => u32bytes s.length ++ s
  | .b v => [if v then 1 else 0]

/-- On-disk encoding of a cell (spec §4.3 data section): a presence byte,
then the value payload when present. -/
def encodeCell : Cell → List Nat
  | none => [0]
  | some v => 1 :: encodeValue v

/-- Magic token of the `.cdb` format (spec §4.3 header; the concrete bytes
are a fixed choice, the C source being absent from `src/`). -/
def magicBytes : List Nat := [67, 68, 66, 49]

/-- Format version written by this codec (spec §4.3, §6: a version
mismatch is a hard load failure). -/
def formatVersion : Nat := 1

/-- Modelled from the spec (§4.3 `save`, C file-I/O source absent from
`src/`): header (magic, version, column count), then the schema section
(length-prefixed name, 1-byte type tag, in database order), then the data
section (per column: its own row count, then presence-flagged encoded
cells). -/
def saveBytes (db : Backend) : List Nat :=
  magicBytes ++ u32bytes formatVersion ++ u32bytes db.length
    ++ db.flatMap (fun c => u32bytes c.name.length ++ c.name ++ [c.dtype.toTag])
    ++ db.flatMap (fun c => u32bytes c.cells.length ++ c.cells.flatMap encodeCell)

/-- Take one byte off the stream. -/
def readByte : List Nat → Option (Nat × List Nat)
  | [] => none
  | b :: r => some (b, r)

/-- Take a chunk of exactly `n` bytes off the stream; fails when the field
would overrun the remaining byte count (spec §4.3 load). -/
def readChunk : Nat → List Nat → Option (List Nat × List Nat)
  | 0, l => some ([], l)
  | _ + 1, [] => none
  | n + 1, b :: r => (readChunk n r).map (fun p => (b :: p.1, p.2))

/-- Read a little-endian unsigned 32-bit quantity. -/
def readU32 (l : List Nat) : Option (Nat × List Nat) :=
  match readChunk 4 l with
  | some ([b0, b1, b2, b3], r) => some (b0 + 256 * b1 + 2 ^ 16 * b2 + 2 ^ 24 * b3, r)
  | _ => none

/-- Read a little-endian unsigned 64-bit quantity. -/
def readU64 (l : List Nat) : Option (Nat × List Nat) :=
  match readU32 l with
  | some (lo, r) =>
    match readU32 r with
    | some (hi, r2) => some (lo + 2 ^ 32 * hi, r2)
    | none => none
  | none => none

/-- Signed reading of a 32-bit two's-complement pattern. -/
def fromTwos32 (n : Nat) : Int :=
  if n < 2 ^ 31 then (n : Int) else (n : Int) - 2 ^ 32

/-- Signed reading of a 64-bit two's-complement pattern. -/
def fromTwos64 (n : Nat) : Int :=
  if n < 2 ^ 63 then (n : Int) else (n : Int) - 2 ^ 64

/-- Modelled from the spec (§4.1 Value Codec `decode`): inverse of
`encodeValue`, directed by the column type; fails on a short stream. -/
def decodeValue : DataType → List Nat → Option (Value × List Nat)
  | .int32, l => (readU32 l).map (fun p => (.i32 (fromTwos32 p.1), p.2))
  | .int64, l => (readU64 l).map (fun p => (.i64 (fromTwos64 p.1), p.2))
  | .float32, l => (readU32 l).map (fun p => (.f32 p.1, p.2))
  | .float64, l => (readU64 l).map (fun p => (.f64 p.1, p.2))
  | .string, l =>
    match readU32 l with
    | some (len, r) => (readChunk len r).map (fun p => (.str p.1, p.2))
    | none => none
  | .bool_, l =>
    match readByte l with
    | some (0, r) => some (.b false, r)
    | some (1, r) => some (.b true, r)
    | _ => none

/-- Decode one cell: presence byte 0 is NULL, 1 is a value, anything else
is corrupt (spec §4.3 data section). -/
def decodeCell (dt : DataType) (l : List Nat) : Option (Cell × List Nat) :=
  match readByte l with
  | some (0, r) => some (none, r)
  | some (1, r) => (decodeValue dt r).map (fun p => (some p.1, p.2))
  | _ => none

/-- Decode exactly `n` cells of a column. -/
def readCells (dt : DataType) : Nat → List Nat → Option (List Cell × List Nat)
  | 0, l => some ([], l)
  | n + 1, l =>
    match decodeCell dt l with
    | some (c, r) => (readCells dt n r).map (fun p => (c :: p.1, p.2))
    | none => none

/-- Decode the schema section: `n` (name, type-tag) entries. -/
def readSchemas : Nat → List Nat → Option (List (List Nat × DataType) × List Nat)
  | 0, l => some ([], l)
  | n + 1, l =>
    match readU32 l with
    | some (len, r) =>
      match readChunk len r with
      | some (name, r2) =>
        match readByte r2 with
        | some (tag, r3) =>
          match tagToType (tag : Int) with
          | some dt =>
            (readSchemas n r3).map (fun p => ((name, dt) :: p.1, p.2))
          | none => none
        | none => none
      | none => none
    | none => none

/-- Decode the data section against a parsed schema: per column its row
count then its cells. -/
def readDatas : List (List Nat × DataType) → List Nat → Option (Backend × List Nat)
  | [], l => some ([], l)
  | (name, dt) :: rest, l =>
    match readU32 l with
    | some (cnt, r) =>
      match readCells dt cnt r with
      | some (cells, r2) =>
        (readDatas rest r2).map (fun p => (⟨name, dt, cells⟩ :: p.1, p.2))
      | none => none
    | none => none

/-- Modelled from the spec (§4.3 `load`, C file-I/O source absent from
`src/`): checks magic and version, reads the column count, the schema
section and the data section; any mismatch or overrun yields `none`
(CorruptData). -/
def loadBytes (l : List Nat) : Option Backend :=
  match readChunk 4 l with
  | none => none
  | some (m, r) =>
    if m = magicBytes then
      match readU32 r with
      | none => none
      | some (ver, r2) =>
        if ver = formatVersion then
          match readU32 r2 with
          | none => none
          | some (ncols, r3) =>
            match readSchemas ncols r3 with
            | none => none
            | some (schema, r4) => (readDatas schema r4).map (fun p => p.1)
        else none
    else none

/-! ## The Python wrapper (`columndb/__init__.py`) -/

/-- A dynamically typed Python value handed to `ColumnDB.insert`.  `vfloat`
carries the IEEE-754 double bit pattern.  The embedding covers `None`,
`int`, `float`, `str` and `bool` arguments. -/
inductive PyVal
  | vnone
  | vint (i : Int)
  | vfloat (bits : Nat)
  | vstr (s : List Nat)
  | vbool (b : Bool)
deriving DecidableEq, Repr

/-- Outcome of a Python conversion builtin over the modelled value
universe: success, a Python exception, or a case outside this embedding
(IEEE-754 float formatting/rounding). -/
inductive Conv (α : Type)
  | ok (a : α)
  | fail
  | unmodelled
deriving DecidableEq, Repr

/-- Post-compose a conversion outcome with a packaging function. -/
def Conv.map {α β : Type} (f : α → β) : Conv α → Conv β
  | .ok a => .ok (f a)
  | .fail => .fail
  | .unmodelled => .unmodelled

/-- Accumulate decimal digit bytes (ASCII 48..57) into a number; `none` on
a non-digit. -/
def digitsAcc : List Nat → Nat → Option Nat
  | [], acc => some acc
  | b :: r, acc => if 48 ≤ b ∧ b ≤ 57 then digitsAcc r (acc * 10 + (b - 48)) else none

/-- Value of a non-empty all-digit byte string. -/
def digitsVal : List Nat → Option Nat
  | [] => none
  | l => digitsAcc l 0

/-- The integer-literal fragment of Python `int(str)`: an optional sign
followed by decimal digits (whitespace/underscore forms are outside the
embedding and read as failures). -/
def parseIntBytes : List Nat → Option Int
  | 43 :: rest => (digitsVal rest).map (fun n => (n : Int))
  | 45 :: rest => (digitsVal rest).map (fun n => -(n : Int))
  | l => (digitsVal l).map (fun n => (n : Int))

/-- Embedding of the Python builtin `int(value)` used by `insert` on
INT32/INT64 columns: identity on ints, 0/1 on bools, literal parsing on
strings (`ValueError` on a bad literal), `TypeError` on `None`;
truncation of a float (IEEE-754) is outside the embedding. -/
def pyToInt : PyVal → Conv Int
  | .vint i => .ok i
  | .vbool b => .ok (if b then 1 else 0)
  | .vstr s => match parseIntBytes s with
    | some i => .ok i
    | none => .fail
  | .vfloat _ => .unmodelled
  | .vnone => .fail

/-- Embedding of the Python builtin `float(value)` used by `insert` on
FLOAT64 columns, as a 64-bit pattern: identity on floats, the exact
patterns of 1.0/0.0 on bools, `TypeError` on `None`; forming a double
from an int or string (IEEE-754 rounding/parsing) is outside the
embedding. -/
def pyToF64 : PyVal → Conv Nat
  | .vfloat bits => .ok bits
  | .vbool b => .ok (if b then 0x3FF0000000000000 else 0)
  | .vnone => .fail
  | .vint _ => .unmodelled
  | .vstr _ => .unmodelled

/-- The FLOAT32 path of `insert`: Python `float(value)` followed by the C
extension's double-to-single cast.  Only the bool constants survive the
embedding exactly (1.0f/0.0f); every other double-to-single rounding is
outside it. -/
def pyToF32 : PyVal → Conv Nat
  | .vbool b => .ok (if b then 0x3F800000 else 0)
  | .vnone => .fail
  | _ => .unmodelled

/-- Decimal digit bytes of a natural number. -/
def natDecimalBytes (n : Nat) : List Nat :=
  (Nat.toDigits 10 n).map Char.toNat

/-- Embedding of the Python builtin `str(value)` used by `insert` on
STRING columns: identity on strings, decimal representation of ints,
`True`/`False` for bools, `None` for `None`; `repr` of a float is outside
the embedding. -/
def pyToStr : PyVal → Conv (List Nat)
  | .vstr s => .ok s
  | .vint i => .ok (if i < 0 then 45 :: natDecimalBytes i.natAbs else natDecimalBytes i.toNat)
  | .vbool b => .ok (if b then [84, 114, 117, 101] else [70, 97, 108, 115, 101])
  | .vnone => .ok [78, 111, 110, 101]
  | .vfloat _ => .unmodelled

/-- Embedding of the Python builtin `bool(value)` used by `insert` on BOOL
columns: truthiness (`0`, `""`, `0.0`/`-0.0` and `None` are false,
everything else true; a NaN pattern is true like any nonzero float). -/
def pyToBool : PyVal → Conv Bool
  | .vbool b => .ok b
  | .vint i => .ok (decide (i ≠ 0))
  | .vstr s => .ok (decide (s ≠ []))
  | .vfloat bits => .ok (decide (¬(bits = 0 ∨ bits = 2 ^ 63)))
  | .vnone => .ok false

/-- Errors raised by the wrapper methods of `columndb/__init__.py`,
distinguished by raise site. -/
inductive PyErr
  | columnExists (name : List Nat)
  | invalidType (t : Int)
  | addFailed (e : BErr)
  | columnMissing (name : List Nat)
  | backendRaised (e : BErr)
  | convFailed
  | unmodelledConv
  | unknownDataType (t : Int)
  | getFailed (name : List Nat) (e : BErr)
  | loadFailed (e : BErr)
deriving DecidableEq, Repr

/-- State of a `ColumnDB` wrapper object: the backend handle `_db`, the
name-to-type tracking dict `_columns` (an insertion-ordered association
list) and `_filename`. -/
structure PyDB where
  db : Backend
  columns : List (List Nat × Int)
  filename : Option String
deriving DecidableEq, Repr

/-- Lookup in the `_columns` tracking dict. -/
def lookupCol (name : List Nat) : List (List Nat × Int) → Option Int
  | [] => none
  | (n, t) :: rest => if n = name then some t else lookupCol name rest

/-- Wrapper method `ColumnDB.add_column` (`__init__.py` lines 68–90): duplicate check on
`_columns`, then the 0..5 range check, then the backend call inside a
`try` whose success is followed by the `_columns` update; a backend
failure is re-raised wrapped and skips that update.  Returns the outcome
together with the post-call object state. -/
def addColumnR (s : PyDB) (name : List Nat) (t : Int) : Except PyErr Unit × PyDB :=
  if (lookupCol name s.columns).isSome then (.error (.columnExists name), s)
  else if t < 0 ∨ 5 < t then (.error (.invalidType t), s)
  else
    match backendAddColumn s.db name t with
    | .ok db2 => (.ok (), { s with db := db2, columns := s.columns ++ [(name, t)] })
    | .error e => (.error (.addFailed e), s)

/-- Wrapper method `ColumnDB.insert` (`__init__.py` lines 92–124): membership check on
`_columns`, `None` dispatched to `insert_null`, otherwise the value is
converted with the Python constructor of the column's recorded type and
handed to the per-type backend insert; the final `else` branch raises on
a type tag outside 0..5. -/
def insertR (s : PyDB) (name : List Nat) (v : PyVal) : Except PyErr Unit × PyDB :=
  match lookupCol name s.columns with
  | none => (.error (.columnMissing name), s)
  | some t =>
    match v with
    | .vnone =>
      match backendInsertNull s.db name with
      | .ok db2 => (.ok (), { s with db := db2 })
      | .error e => (.error (.backendRaised e), s)
    | _ =>
      let conv : Conv Value :=
        if t = 0 then (pyToInt v).map .i32
        else if t = 1 then (pyToInt v).map .i64
        else if t = 2 then (pyToF32 v).map .f32
        else if t = 3 then (pyToF64 v).map .f64
        else if t = 4 then (pyToStr v).map .str
        else if t = 5 then (pyToBool v).map .b
        else .fail
      if t < 0 ∨ 5 < t then (.error (.unknownDataType t), s)
      else
        match conv with
        | .fail => (.error .convFailed, s)
        | .unmodelled => (.error .unmodelledConv, s)
        | .ok w =>
          match backendInsertVal s.db name w with
          | .ok db2 => (.ok (), { s with db := db2 })
          | .error e => (.error (.backendRaised e), s)

/-- Wrapper method `ColumnDB.get_column_data` (`__init__.py` lines 126–144): delegates to
the backend and re-raises its failure as a column-does-not-exist
`ValueError`. -/
def getColumnDataR (s : PyDB) (name : List Nat) : Except PyErr (List Cell) :=
  match backendGetColumnData s.db name with
  | .ok l => .ok l
  | .error e => .error (.getFailed name e)

/-- The `type_names` dict of `get_schema` (`__init__.py` lines 161–168);
total with a sentinel for tags the dict does not hold (where Python would
raise `KeyError`, unreachable for tags recorded by `add_column`). -/
def typeNameOf (t : Int) : String :=
  if t = 0 then "int32"
  else if t = 1 then "int64"
  else if t = 2 then "float32"
  else if t = 3 then "float64"
  else if t = 4 then "string"
  else if t = 5 then "bool"
  else "invalid"

/-- Wrapper method `ColumnDB.get_schema` (`__init__.py` lines 154–180): when the
`_columns` dict is non-empty, its entries with type names; otherwise the
backend's column names each mapped to `"unknown"`. -/
def getSchemaR (s : PyDB) : List (List Nat × String) :=
  if s.columns ≠ [] then s.columns.map (fun p => (p.1, typeNameOf p.2))
  else (backendGetColumnNames s.db).map (fun n => (n, "unknown"))

/-- The file system seen by `save`/`load`/`os.path.exists`: a map from
paths to byte contents. -/
def FS : Type := String → Option (List Nat)

/-- Store bytes at a path. -/
def fsSet (fs : FS) (path : String) (bytes : List Nat) : FS :=
  fun q => if q = path then some bytes else fs q

/-- Wrapper method `ColumnDB.save` (`__init__.py` lines 182–196): records `_filename`,
then has the backend write the serialized current state to the path
(write success modelled as total; an I/O failure is environmental). -/
def saveR (s : PyDB) (path : String) (fs : FS) : PyDB × FS :=
  ({ s with filename := some path }, fsSet fs path (saveBytes s.db))

/-- Modelled from the spec (§4.3 `load` of the C backend, absent from
`src/`): `FileNotFound` on a missing path, `CorruptData` on a parse
failure, otherwise the reconstructed backend database. -/
def backendLoadFS (fs : FS) (path : String) : Except BErr Backend :=
  match fs path with
  | none => .error .fileNotFound
  | some bytes =>
    match loadBytes bytes with
    | some db => .ok db
    | none => .error .corruptData

/-- The `ColumnDB.load` classmethod (`__init__.py` lines 198–232): builds
a fresh instance with `_filename` set and `_columns` left empty, attaches
the backend object returned by the backend load, and re-raises a backend
failure wrapped; the `_columns` tracking dict is never rebuilt. -/
def wrapperLoadR (fs : FS) (path : String) : Except PyErr PyDB :=
  match backendLoadFS fs path with
  | .ok b => .ok ⟨b, [], some path⟩
  | .error e => .error (.loadFailed e)

/-- Wrapper constructor `ColumnDB.__init__` (`__init__.py` lines 48–66): a fresh empty backend
and empty `_columns`; when a filename is given, truthy (non-empty) and
existing, `self.load(filename)` is called — whose returned new instance is
discarded, so only its exception can escape. -/
def initDB (fname : Option String) (fs : FS) : Except PyErr PyDB :=
  let base : PyDB := ⟨[], [], fname⟩
  match fname with
  | none => .ok base
  | some f =>
    if f ≠ "" ∧ (fs f).isSome then
      match wrapperLoadR fs f with
      | .ok _ => .ok base
      | .error e => .error e
    else .ok base

/-! ## Building a Database by a sequence of calls (claim C1) -/

/-- One wrapper call in a build sequence. -/
inductive Op
  | addCol (name : List Nat) (tag : Int)
  | ins (name : List Nat) (v : PyVal)
deriving DecidableEq, Repr

/-- Apply one call, keeping the post-call state whether or not the call
raised (a raising call leaves the object unchanged). -/
def applyOp (s : PyDB) : Op → PyDB
  | .addCol n t => (addColumnR s n t).2
  | .ins n v => (insertR s n v).2

/-- The wrapper state after a sequence of `add_column`/`insert` calls on a
fresh `ColumnDB()`. -/
def runOps (ops : List Op) : PyDB :=
  ops.foldl applyOp ⟨[], [], none⟩

/-- Bound on one call: a column name fits the 4-byte length prefix of the
schema section. -/
def opBounded : Op → Prop
  | .addCol n _ => n.length < 2 ^ 32
  | .ins _ _ => True

/-- A build sequence whose names and total length fit the format's 32-bit
counters. -/
def opsBounded (ops : List Op) : Prop :=
  ops.length < 2 ^ 32 ∧ ∀ op ∈ ops, opBounded op

/-! ## Round-trip lemmas for the File Codec -/

/-- Reading back exactly the bytes of a chunk returns that chunk and the
remainder. -/
theorem readChunk_append (s r : List Nat) : readChunk s.length (s ++ r) = some (s, r) := by
  induction s with
  | nil => simp [readChunk]
  | cons b t ih => simp [readChunk, ih]

/-- A 32-bit quantity written little-endian reads back exactly. -/
theorem readU32_u32bytes (n : Nat) (r : List Nat) (h : n < 2 ^ 32) :
    readU32 (u32bytes n ++ r) = some (n, r) := by
  have : readChunk 4 (u32bytes n ++ r) =
      some ([n % 256, n / 256 % 256, n / 2 ^ 16 % 256, n / 2 ^ 24 % 256], r) := by
    simpa [u32bytes] using readChunk_append (u32bytes n) r
  simp only [readU32, this]
  congr 1
  congr 1
  omega

/-- A 64-bit quantity written little-endian reads back exactly. -/
theorem readU64_u64bytes (n : Nat) (r : List Nat) (h : n < 2 ^ 64) :
    readU64 (u64bytes n ++ r) = some (n, r) := by
  have hlo : n % 2 ^ 32 < 2 ^ 32 := Nat.mod_lt _ (by norm_num)
  have hhi : n / 2 ^ 32 < 2 ^ 32 := by omega
  simp only [u64bytes, List.append_assoc, readU64,
    readU32_u32bytes _ _ hlo, readU32_u32bytes _ _ hhi]
  congr 2
  omega

/-- The map `tagToType` inverts the numeric tag of every `DataType`. -/
theorem tagToType_toTag (dt : DataType) : tagToType ((dt.toTag : Nat) : Int) = some dt := by
  cases dt <;> rfl

/-- A type-correct in-range value decodes back from its encoding. -/
theorem decodeValue_encodeValue (dt : DataType) (v : Value) (r : List Nat)
    (h : valOK dt v = true) :
    decodeValue dt (encodeValue v ++ r) = some (v, r) := by
  cases dt <;> cases v <;> simp [valOK] at h
  case int32.i32 w =>
    have hb : twosComp 32 w < 2 ^ 32 := by
      unfold twosComp
      have e : (2 : Int) ^ (32 : Nat) = 4294967296 := by norm_num
      rw [e]
      omega
    simp only [encodeValue, decodeValue, List.append_assoc,
      readU32_u32bytes _ _ hb, Option.map_some']
    have hv : fromTwos32 (twosComp 32 w) = w := by
      unfold fromTwos32 twosComp
      have e : (2 : Int) ^ (32 : Nat) = 4294967296 := by norm_num
      rw [e]
      split <;> omega
    rw [hv]
  case int64.i64 w =>
    have hb : twosComp 64 w < 2 ^ 64 := by
      unfold twosComp
      have e : (2 : Int) ^ (64 : Nat) = 18446744073709551616 := by norm_num
      rw [e]
      omega
    simp only [encodeValue, decodeValue, List.append_assoc,
      readU64_u64bytes _ _ hb, Option.map_some']
    have hv : fromTwos64 (twosComp 64 w) = w := by
      unfold fromTwos64 twosComp
      have e : (2 : Int) ^ (64 : Nat) = 18446744073709551616 := by norm_num
      rw [e]
      split <;> omega
    rw [hv]
  case float32.f32 bits =>
    simp [encodeValue, decodeValue, readU32_u32bytes _ _ h]
  case float64.f64 bits =>
    simp [encodeValue, decodeValue, readU64_u64bytes _ _ h]
  case string.str s =>
    simp only [encodeValue, decodeValue, List.append_assoc,
      readU32_u32bytes _ _ h, readChunk_append, Option.map_some']
  case bool_.b w =>
    cases w <;> simp [encodeValue, decodeValue, readByte]

/-- A well-formed cell decodes back from its presence-flagged encoding. -/
theorem decodeCell_encodeCell (dt : DataType) (c : Cell) (r : List Nat)
    (h : cellOK dt c = true) :
    decodeCell dt (encodeCell c ++ r) = some (c, r) := by
  cases c with
  | none => simp [encodeCell, decodeCell, readByte]
  | some v =>
    simp only [cellOK] at h
    simp [encodeCell, decodeCell, readByte, decodeValue_encodeValue dt v r h]

/-- A well-formed cell sequence decodes back from its concatenated
encoding. -/
theorem readCells_encode (dt : DataType) (cells : List Cell) (r : List Nat)
    (h : ∀ c ∈ cells, cellOK dt c = true) :
    readCells dt cells.length (cells.flatMap encodeCell ++ r) = some (cells, r) := by
  induction cells with
  | nil => simp [readCells]
  | cons c t ih =>
    have hc : cellOK dt c = true := h c (by simp)
    have ht : ∀ x ∈ t, cellOK dt x = true := fun x hx => h x (by simp [hx])
    simp only [List.length_cons, List.flatMap_cons, List.append_assoc, readCells,
      decodeCell_encodeCell dt c _ hc, ih ht, Option.map_some']

/-- Per-column schema-section bytes. -/
def schemaEnc (c : Col) : List Nat :=
  u32bytes c.name.length ++ c.name ++ [c.dtype.toTag]

/-- Per-column data-section bytes. -/
def dataEnc (c : Col) : List Nat :=
  u32bytes c.cells.length ++ c.cells.flatMap encodeCell

/-- The schema section reads back as the (name, type) pairs of the
columns, in order. -/
theorem readSchemas_encode (cols : List Col) (r : List Nat)
    (h : ∀ c ∈ cols, c.name.length < 2 ^ 32) :
    readSchemas cols.length (cols.flatMap schemaEnc ++ r) =
      some (cols.map (fun c => (c.name, c.dtype)), r) := by
  induction cols with
  | nil => simp [readSchemas]
  | cons c t ih =>
    have hc : c.name.length < 2 ^ 32 := h c (by simp)
    have ht : ∀ x ∈ t, x.name.length < 2 ^ 32 := fun x hx => h x (by simp [hx])
    simp only [List.length_cons, List.flatMap_cons, schemaEnc, List.append_assoc,
      readSchemas, readU32_u32bytes _ _ hc, readChunk_append, List.singleton_append]
    simp [readByte, tagToType_toTag, ih ht]

/-- The data section reads back, against the parsed schema, as the columns
themselves. -/
theorem readDatas_encode (cols : List Col) (r : List Nat)
    (h : ∀ c ∈ cols, c.cells.length < 2 ^ 32 ∧ ∀ cell ∈ c.cells, cellOK c.dtype cell = true) :
    readDatas (cols.map (fun c => (c.name, c.dtype))) (cols.flatMap dataEnc ++ r) =
      some (cols, r) := by
  induction cols with
  | nil => simp [readDatas]
  | cons c t ih =>
    have hc := h c (by simp)
    have ht : ∀ x ∈ t, x.cells.length < 2 ^ 32 ∧ ∀ cell ∈ x.cells, cellOK x.dtype cell = true :=
      fun x hx => h x (by simp [hx])
    simp only [List.map_cons, List.flatMap_cons, dataEnc, List.append_assoc, readDatas,
      readU32_u32bytes _ _ hc.1, readCells_encode c.dtype c.cells _ hc.2, ih ht,
      Option.map_some']

/-- Well-formedness of a backend database: everything fits the 32-bit
counters of the file format and every cell matches its column type. -/
def dbWF (db : Backend) : Prop :=
  db.length < 2 ^ 32 ∧
    ∀ c ∈ db, c.name.length < 2 ^ 32 ∧ c.cells.length < 2 ^ 32 ∧
      ∀ cell ∈ c.cells, cellOK c.dtype cell = true

/-- File Codec round trip (spec §4.3, §8): loading the bytes written for a
well-formed database reconstructs that database exactly — schema (names,
types, order) and per-column cell sequences, NULL positions included. -/
theorem loadBytes_saveBytes (db : Backend) (h : dbWF db) :
    loadBytes (saveBytes db) = some db := by
  obtain ⟨hlen, hcols⟩ := h
  have hmagic : readChunk 4 (saveBytes db) =
      some (magicBytes, u32bytes formatVersion ++ u32bytes db.length
        ++ db.flatMap schemaEnc ++ db.flatMap dataEnc) := by
    simpa [saveBytes, magicBytes, schemaEnc, dataEnc] using
      readChunk_append magicBytes (u32bytes formatVersion ++ u32bytes db.length
        ++ db.flatMap schemaEnc ++ db.flatMap dataEnc)
  have hver : (formatVersion : Nat) < 2 ^ 32 := by norm_num [formatVersion]
  have hdata : db.flatMap dataEnc = db.flatMap dataEnc ++ [] := by simp
  simp only [loadBytes, hmagic, if_pos rfl, List.append_assoc,
    readU32_u32bytes _ _ hver, if_pos rfl, readU32_u32bytes _ _ hlen,
    readSchemas_encode db _ (fun c hc => (hcols c hc).1)]
  rw [show db.flatMap dataEnc = db.flatMap dataEnc ++ [] by simp,
    readDatas_encode db [] (fun c hc => ⟨(hcols c hc).2.1, (hcols c hc).2.2⟩)]
  rfl

/-! ## Well-formedness of databases built by wrapper calls -/

/-- A successful backend value insert keeps the number of columns. -/
theorem backendInsertVal_length {db db2 : Backend} {name : List Nat} {v : Value}
    (he : backendInsertVal db name v = .ok db2) : db2.length = db.length := by
  induction db generalizing db2 with
  | nil => simp [backendInsertVal] at he
  | cons c rest ih =>
    simp only [backendInsertVal] at he
    by_cases hn : c.name = name
    · rw [if_pos hn] at he
      by_cases hv : valOK c.dtype v
      · rw [if_pos hv] at he
        cases he
        simp
      · rw [if_neg hv] at he
        cases he
    · rw [if_neg hn] at he
      cases hrec : backendInsertVal rest name v with
      | error e => rw [hrec] at he; cases he
      | ok r2 =>
        rw [hrec] at he
        cases he
        simp [ih hrec]

/-- A successful backend NULL insert keeps the number of columns. -/
theorem backendInsertNull_length {db db2 : Backend} {name : List Nat}
    (he : backendInsertNull db name = .ok db2) : db2.length = db.length := by
  induction db generalizing db2 with
  | nil => simp [backendInsertNull] at he
  | cons c rest ih =>
    simp only [backendInsertNull] at he
    by_cases hn : c.name = name
    · rw [if_pos hn] at he
      cases he
      simp
    · rw [if_neg hn] at he
      cases hrec : backendInsertNull rest name with
      | error e => rw [hrec] at he; cases he
      | ok r2 =>
        rw [hrec] at he
        cases he
        simp [ih hrec]

/-- Per-column bounded well-formedness: names fit the 32-bit prefix, at
most `k` cells per column, every cell type-correct. -/
def colsWFle (k : Nat) (db : Backend) : Prop :=
  ∀ c ∈ db, c.name.length < 2 ^ 32 ∧ c.cells.length ≤ k ∧
    ∀ cell ∈ c.cells, cellOK c.dtype cell = true

theorem colsWFle_mono {k m : Nat} {db : Backend} (h : colsWFle k db) (hkm : k ≤ m) :
    colsWFle m db := by
  intro c hc
  obtain ⟨ha, hb, hcc⟩ := h c hc
  exact ⟨ha, le_trans hb hkm, hcc⟩

/-- A successful backend value insert preserves per-column
well-formedness, growing the cell bound by one. -/
theorem backendInsertVal_wf {k : Nat} {db db2 : Backend} {name : List Nat} {v : Value}
    (h : colsWFle k db) (he : backendInsertVal db name v = .ok db2) :
    colsWFle (k + 1) db2 := by
  induction db generalizing db2 with
  | nil => simp [backendInsertVal] at he
  | cons c rest ih =>
    simp only [backendInsertVal] at he
    by_cases hn : c.name = name
    · rw [if_pos hn] at he
      by_cases hv : valOK c.dtype v
      · rw [if_pos hv] at he
        cases he
        intro x hx
        rcases List.mem_cons.mp hx with hx | hx
        · subst hx
          obtain ⟨ha, hb, hcc⟩ := h c (by simp)
          refine ⟨ha, by simp; omega, fun cell hcell => ?_⟩
          rcases List.mem_append.mp hcell with hcell | hcell
          · exact hcc cell hcell
          · simp only [List.mem_singleton] at hcell
            subst hcell
            simpa [cellOK] using hv
        · obtain ⟨ha, hb, hcc⟩ := h x (by simp [hx])
          exact ⟨ha, le_trans hb (Nat.le_succ k), hcc⟩
      · rw [if_neg hv] at he
        cases he
    · rw [if_neg hn] at he
      cases hrec : backendInsertVal rest name v with
      | error e => rw [hrec] at he; cases he
      | ok r2 =>
        rw [hrec] at he
        simp only [Except.map] at he
        cases he
        have hrest : colsWFle k rest := fun x hx => h x (by simp [hx])
        have hr2 := ih hrest hrec
        intro y hy
        rcases List.mem_cons.mp hy with hy | hy
        · obtain ⟨ha, hb, hcc⟩ := h y (by simp [hy])
          exact ⟨ha, le_trans hb (Nat.le_succ k), hcc⟩
        · exact hr2 y hy

/-- A successful backend NULL insert preserves per-column
well-formedness, growing the cell bound by one. -/
theorem backendInsertNull_wf {k : Nat} {db db2 : Backend} {name : List Nat}
    (h : colsWFle k db) (he : backendInsertNull db name = .ok db2) :
    colsWFle (k + 1) db2 := by
  induction db generalizing db2 with
  | nil => simp [backendInsertNull] at he
  | cons c rest ih =>
    simp only [backendInsertNull] at he
    by_cases hn : c.name = name
    · rw [if_pos hn] at he
      cases he
      intro x hx
      rcases List.mem_cons.mp hx with hx | hx
      · subst hx
        obtain ⟨ha, hb, hcc⟩ := h c (by simp)
        refine ⟨ha, by simp; omega, fun cell hcell => ?_⟩
        rcases List.mem_append.mp hcell with hcell | hcell
        · exact hcc cell hcell
        · simp only [List.mem_singleton] at hcell
          subst hcell
          simp [cellOK]
      · obtain ⟨ha, hb, hcc⟩ := h x (by simp [hx])
        exact ⟨ha, le_trans hb (Nat.le_succ k), hcc⟩
    · rw [if_neg hn] at he
      cases hrec : backendInsertNull rest name with
      | error e => rw [hrec] at he; cases he
      | ok r2 =>
        rw [hrec] at he
        simp only [Except.map] at he
        cases he
        have hrest : colsWFle k rest := fun x hx => h x (by simp [hx])
        have hr2 := ih hrest hrec
        intro y hy
        rcases List.mem_cons.mp hy with hy | hy
        · obtain ⟨ha, hb, hcc⟩ := h y (by simp [hy])
          exact ⟨ha, le_trans hb (Nat.le_succ k), hcc⟩
        · exact hr2 y hy

/-- Inversion of a successful backend column creation. -/
theorem backendAddColumn_ok {db db2 : Backend} {name : List Nat} {tag : Int}
    (he : backendAddColumn db name tag = .ok db2) :
    ∃ dt, tagToType tag = some dt ∧ db2 = db ++ [⟨name, dt, []⟩] := by
  simp only [backendAddColumn] at he
  by_cases hdup : db.any (fun c => c.name = name)
  · rw [if_pos hdup] at he; cases he
  · rw [if_neg hdup] at he
    cases htag : tagToType tag with
    | none => rw [htag] at he; cases he
    | some dt =>
      rw [htag] at he
      cases he
      exact ⟨dt, rfl, rfl⟩

/-- One wrapper call keeps every column well formed within a bound grown
by one. -/
theorem applyOp_wf {k : Nat} {s : PyDB} (op : Op)
    (h : colsWFle k s.db) (hop : opBounded op) :
    colsWFle (k + 1) (applyOp s op).db := by
  cases op with
  | addCol name t =>
    simp only [applyOp, addColumnR]
    split
    · exact colsWFle_mono h (Nat.le_succ k)
    · split
      · exact colsWFle_mono h (Nat.le_succ k)
      · cases hadd : backendAddColumn s.db name t with
        | error e => simp only [hadd]; exact colsWFle_mono h (Nat.le_succ k)
        | ok db2 =>
          simp only [hadd]
          obtain ⟨dt, _, hdb2⟩ := backendAddColumn_ok hadd
          subst hdb2
          intro y hy
          rcases List.mem_append.mp hy with hy | hy
          · obtain ⟨ha, hb, hcc⟩ := h y hy
            exact ⟨ha, le_trans hb (Nat.le_succ k), hcc⟩
          · simp only [List.mem_singleton] at hy
            subst hy
            exact ⟨by simpa [opBounded] using hop, by simp, by simp⟩
  | ins name v =>
    simp only [applyOp, insertR]
    cases hl : lookupCol name s.columns with
    | none => exact colsWFle_mono h (Nat.le_succ k)
    | some t =>
      cases v with
      | vnone =>
        simp only
        cases hins : backendInsertNull s.db name with
        | error e => simp only [hins]; exact colsWFle_mono h (Nat.le_succ k)
        | ok db2 => simp only [hins]; exact backendInsertNull_wf h hins
      | vint i =>
        simp only
        split
        · exact colsWFle_mono h (Nat.le_succ k)
        · split
          · exact colsWFle_mono h (Nat.le_succ k)
          · exact colsWFle_mono h (Nat.le_succ k)
          · rename_i w hconv
            cases hins : backendInsertVal s.db name w with
            | error e => simp only [hins]; exact colsWFle_mono h (Nat.le_succ k)
            | ok db2 => simp only [hins]; exact backendInsertVal_wf h hins
      | vfloat bits =>
        simp only
        split
        · exact colsWFle_mono h (Nat.le_succ k)
        · split
          · exact colsWFle_mono h (Nat.le_succ k)
          · exact colsWFle_mono h (Nat.le_succ k)
          · rename_i w hconv
            cases hins : backendInsertVal s.db name w with
            | error e => simp only [hins]; exact colsWFle_mono h (Nat.le_succ k)
            | ok db2 => simp only [hins]; exact backendInsertVal_wf h hins
      | vstr str =>
        simp only
        split
        · exact colsWFle_mono h (Nat.le_succ k)
        · split
          · exact colsWFle_mono h (Nat.le_succ k)
          · exact colsWFle_mono h (Nat.le_succ k)
          · rename_i w hconv
            cases hins : backendInsertVal s.db name w with
            | error e => simp only [hins]; exact colsWFle_mono h (Nat.le_succ k)
            | ok db2 => simp only [hins]; exact backendInsertVal_wf h hins
      | vbool b =>
        simp only
        split
        · exact colsWFle_mono h (Nat.le_succ k)
        · split
          · exact colsWFle_mono h (Nat.le_succ k)
          · exact colsWFle_mono h (Nat.le_succ k)
          · rename_i w hconv
            cases hins : backendInsertVal s.db name w with
            | error e => simp only [hins]; exact colsWFle_mono h (Nat.le_succ k)
            | ok db2 => simp only [hins]; exact backendInsertVal_wf h hins

/-- One wrapper call grows the column count by at most one. -/
theorem applyOp_length (s : PyDB) (op : Op) :
    (applyOp s op).db.length ≤ s.db.length + 1 := by
  cases op with
  | addCol name t =>
    simp only [applyOp, addColumnR]
    split
    · exact Nat.le_succ _
    · split
      · exact Nat.le_succ _
      · cases hadd : backendAddColumn s.db name t with
        | error e => exact Nat.le_succ _
        | ok db2 =>
          simp only [hadd]
          obtain ⟨dt, _, hdb2⟩ := backendAddColumn_ok hadd
          subst hdb2
          simp
  | ins name v =>
    simp only [applyOp, insertR]
    cases hl : lookupCol name s.columns with
    | none => exact Nat.le_succ _
    | some t =>
      cases v with
      | vnone =>
        simp only
        cases hins : backendInsertNull s.db name with
        | error e => exact Nat.le_succ _
        | ok db2 => simp only [hins]; rw [backendInsertNull_length hins]; omega
      | vint i =>
        simp only
        split
        · exact Nat.le_succ _
        · split
          · exact Nat.le_succ _
          · exact Nat.le_succ _
          · rename_i w hconv
            cases hins : backendInsertVal s.db name w with
            | error e => exact Nat.le_succ _
            | ok db2 => simp only [hins]; rw [backendInsertVal_length hins]; omega
      | vfloat bits =>
        simp only
        split
        · exact Nat.le_succ _
        · split
          · exact Nat.le_succ _
          · exact Nat.le_succ _
          · rename_i w hconv
            cases hins : backendInsertVal s.db name w with
            | error e => exact Nat.le_succ _
            | ok db2 => simp only [hins]; rw [backendInsertVal_length hins]; omega
      | vstr str =>
        simp only
        split
        · exact Nat.le_succ _
        · split
          · exact Nat.le_succ _
          · exact Nat.le_succ _
          · rename_i w hconv
            cases hins : backendInsertVal s.db name w with
            | error e => exact Nat.le_succ _
            | ok db2 => simp only [hins]; rw [backendInsertVal_length hins]; omega
      | vbool b =>
        simp only
        split
        · exact Nat.le_succ _
        · split
          · exact Nat.le_succ _
          · exact Nat.le_succ _
          · rename_i w hconv
            cases hins : backendInsertVal s.db name w with
            | error e => exact Nat.le_succ _
            | ok db2 => simp only [hins]; rw [backendInsertVal_length hins]; omega

/-- Along a bounded call sequence, well-formedness accumulates with the
number of calls. -/
theorem foldl_applyOp_wf (ops : List Op) :
    ∀ (s : PyDB) (k : Nat), colsWFle k s.db → s.db.length ≤ k →
      (∀ op ∈ ops, opBounded op) →
      colsWFle (k + ops.length) ((ops.foldl applyOp s).db) ∧
        ((ops.foldl applyOp s).db.length ≤ k + ops.length) := by
  induction ops with
  | nil => intro s k h1 h2 _; simpa using ⟨h1, h2⟩
  | cons op t ih =>
    intro s k h1 h2 hops
    have hop : opBounded op := hops op (by simp)
    have hstep1 := applyOp_wf op h1 hop
    have hstep2 : (applyOp s op).db.length ≤ k + 1 :=
      le_trans (applyOp_length s op) (by omega)
    have := ih (applyOp s op) (k + 1) hstep1 hstep2 (fun x hx => hops x (by simp [hx]))
    simpa [List.foldl_cons, Nat.add_assoc, Nat.add_comm, Nat.add_left_comm] using this

/-- A Database built by a bounded sequence of wrapper calls has a
well-formed backend. -/
theorem runOps_dbWF (ops : List Op) (h : opsBounded ops) : dbWF (runOps ops).db := by
  obtain ⟨hlen, hops⟩ := h
  have hbase : colsWFle 0 (⟨[], [], none⟩ : PyDB).db := by intro c hc; simp at hc
  have := foldl_applyOp_wf ops ⟨[], [], none⟩ 0 hbase (by simp) hops
  obtain ⟨h1, h2⟩ := this
  refine ⟨by simpa using lt_of_le_of_lt (by simpa using h2) hlen, fun c hc => ?_⟩
  obtain ⟨ha, hb, hcc⟩ := h1 c (by simpa [runOps] using hc)
  exact ⟨ha, lt_of_le_of_lt (le_trans hb (by simp)) hlen, hcc⟩

instance : DecidablePred opBounded := fun op =>
  match op with
  | .addCol n _ => inferInstanceAs (Decidable (n.length < 2 ^ 32))
  | .ins _ _ => inferInstanceAs (Decidable True)

/-- Reading a path just written returns the written bytes. -/
theorem fsSet_self (fs : FS) (path : String) (b : List Nat) :
    fsSet fs path b path = some b := by
  simp [fsSet]

/-- A sample build sequence used to instantiate theorems with hypotheses:
columns id:INT64, n:STRING, b:BOOL, f:FLOAT64 with values, a NULL and a
negative integer. -/
def demoOps : List Op :=
  [.addCol [105, 100] 1, .ins [105, 100] (.vint 1), .ins [105, 100] (.vint (-7)),
   .addCol [110] 4, .ins [110] (.vstr [65, 108]), .ins [110] .vnone,
   .addCol [98] 5, .ins [98] (.vbool true),
   .addCol [102] 3, .ins [102] (.vfloat 4638387860618067575)]

/-- C1: for every Database built by a sequence of `add_column`/`insert`
calls (names fitting the format's 32-bit counters), saving it to a path
and loading from that path succeeds and yields a Database whose backend —
schema (column names, declared types, order) and per-column cell
sequences, NULL positions and exact payloads included — equals the one
saved.  The loaded wrapper handle carries that backend in full; its
`_columns` tracking dict is the subject of C3/C9. -/
theorem C1_build_save_load_roundtrip (ops : List Op) (h : opsBounded ops)
    (path : String) (fs : FS) :
    ∃ ld, wrapperLoadR ((saveR (runOps ops) path fs).2) path = .ok ld ∧
      ld.db = (runOps ops).db := by
  have hwf := runOps_dbWF ops h
  have hload := loadBytes_saveBytes _ hwf
  refine ⟨⟨(runOps ops).db, [], some path⟩, ?_, rfl⟩
  simp [wrapperLoadR, backendLoadFS, saveR, fsSet_self, hload]

/-- Witness for C1 at the sample build sequence, an empty file system and
path `"f"`. -/
theorem C1_witness :
    ∃ ld, wrapperLoadR ((saveR (runOps demoOps) "f" (fun _ => none)).2) "f" = .ok ld ∧
      ld.db = (runOps demoOps).db :=
  C1_build_save_load_roundtrip demoOps (by constructor <;> decide) "f" (fun _ => none)


/-- C7: `save` never mutates the Database — after `save(path)` the schema
tracking dict and the backend (hence all per-column value sequences) are
exactly as before — and repeating `save` to the same path from the
resulting state changes neither the object nor the file system. -/
theorem C7_save_not_mutating_idempotent (s : PyDB) (path : String) (fs : FS) :
    (saveR s path fs).1.columns = s.columns ∧ (saveR s path fs).1.db = s.db ∧
    saveR (saveR s path fs).1 path (saveR s path fs).2 = saveR s path fs := by
  refine ⟨rfl, rfl, ?_⟩
  have h2 : fsSet (fsSet fs path (saveBytes s.db)) path (saveBytes s.db) =
      fsSet fs path (saveBytes s.db) := by
    funext q
    by_cases hq : q = path <;> simp [fsSet, hq]
  simp [saveR, h2]

/-- C10: `add_column` is atomic with respect to the wrapper object — the
`_columns` entry is written only after the backend add succeeds, so
whenever the call reports any error the whole wrapper state (schema dict
included) is exactly the pre-call state. -/
theorem C10_addColumn_atomic (s : PyDB) (name : List Nat) (t : Int) (e : PyErr)
    (h : (addColumnR s name t).1 = .error e) : (addColumnR s name t).2 = s := by
  unfold addColumnR at h ⊢
  by_cases h1 : (lookupCol name s.columns).isSome
  · simp [h1]
  · by_cases h2 : t < 0 ∨ 5 < t
    · simp [h1, h2]
    · cases hadd : backendAddColumn s.db name t with
      | ok db2 =>
        rw [if_neg (by simpa using h1), if_neg h2, hadd] at h
        simp at h
      | error e2 =>
        rw [if_neg (by simpa using h1), if_neg h2]

/-- Witness for C10: a duplicate `add_column` on a one-column Database
errors and leaves the object untouched. -/
theorem C10_witness :
    (addColumnR (runOps [Op.addCol [97] 0]) [97] 0).1 = .error (.columnExists [97]) ∧
      (addColumnR (runOps [Op.addCol [97] 0]) [97] 0).2 = runOps [Op.addCol [97] 0] :=
  ⟨by rfl, C10_addColumn_atomic (runOps [Op.addCol [97] 0]) [97] 0
    (.columnExists [97]) (by rfl)⟩

/-- C9: a wrapper instance produced by the `load` classmethod has an empty
`_columns` tracking dict, so every subsequent `insert` — any column name,
the ones present in the loaded file included — raises the
column-does-not-exist error and changes nothing. -/
theorem C9_loaded_insert_always_fails (fs : FS) (path : String) (ld : PyDB)
    (h : wrapperLoadR fs path = .ok ld) :
    ld.columns = [] ∧
      ∀ (name : List Nat) (v : PyVal),
        insertR ld name v = (.error (.columnMissing name), ld) := by
  unfold wrapperLoadR at h
  cases hb : backendLoadFS fs path with
  | ok b =>
    rw [hb] at h
    cases h
    exact ⟨rfl, fun name v => rfl⟩
  | error e =>
    rw [hb] at h
    cases h

/-- Witness for C9 at a concrete saved-then-loaded Database. -/
theorem C9_witness :
    wrapperLoadR ((saveR (runOps [Op.addCol [105, 100] 1, Op.ins [105, 100] (.vint 3)])
        "f" (fun _ => none)).2) "f" =
      .ok ⟨[⟨[105, 100], .int64, [some (.i64 3)]⟩], [], some "f"⟩ ∧
    (⟨[⟨[105, 100], .int64, [some (.i64 3)]⟩], [], some "f"⟩ : PyDB).columns = [] ∧
      ∀ (name : List Nat) (v : PyVal),
        insertR ⟨[⟨[105, 100], .int64, [some (.i64 3)]⟩], [], some "f"⟩ name v =
          (.error (.columnMissing name), ⟨[⟨[105, 100], .int64, [some (.i64 3)]⟩], [], some "f"⟩) := by
  have h : wrapperLoadR ((saveR (runOps [Op.addCol [105, 100] 1, Op.ins [105, 100] (.vint 3)])
      "f" (fun _ => none)).2) "f" =
      .ok ⟨[⟨[105, 100], .int64, [some (.i64 3)]⟩], [], some "f"⟩ := by rfl
  exact ⟨h, C9_loaded_insert_always_fails _ "f" _ h⟩

/-- A name absent from the backend makes the backend read fail with
`UnknownColumn`. -/
theorem backendGetColumnData_not_found {db : Backend} {name : List Nat}
    (h : findCol db name = none) :
    backendGetColumnData db name = .error .unknownColumn := by
  induction db with
  | nil => rfl
  | cons c rest ih =>
    simp only [findCol, List.find?] at h
    by_cases hc : c.name = name
    · simp [hc] at h
    · simp only [decide_eq_false hc] at h
      simp [backendGetColumnData, hc, ih h]

/-- C4: for a column name present neither in the wrapper's tracking dict
nor in the backend, `insert` raises the column-does-not-exist error
without touching the state, and `get_column_data` raises the wrapped
`UnknownColumn` error — whatever the Database contents and however it was
populated. -/
theorem C4_unknown_column (s : PyDB) (name : List Nat) (v : PyVal)
    (h1 : lookupCol name s.columns = none) (h2 : findCol s.db name = none) :
    insertR s name v = (.error (.columnMissing name), s) ∧
      getColumnDataR s name = .error (.getFailed name .unknownColumn) := by
  constructor
  · simp [insertR, h1]
  · simp [getColumnDataR, backendGetColumnData_not_found h2]

/-- Witness for C4: the name `x` on the sample Database. -/
theorem C4_witness :
    insertR (runOps demoOps) [120] (.vint 0) =
        (.error (.columnMissing [120]), runOps demoOps) ∧
      getColumnDataR (runOps demoOps) [120] =
        .error (.getFailed [120] .unknownColumn) :=
  C4_unknown_column (runOps demoOps) [120] (.vint 0) (by rfl) (by rfl)

/-- Counterexample to C2: on a STRING column, `insert` of the integer
value 5 does not fail with a type error — the wrapper coerces it with
`str()` and appends the string `"5"`. -/
theorem C2_counterexample :
    insertR (runOps [Op.addCol [115] 4]) [115] (.vint 5) =
      (.ok (), ⟨[⟨[115], .string, [some (.str [53])]⟩], [([115], 4)], none⟩) ∧
    (insertR (runOps [Op.addCol [115] 4]) [115] (.vint 5)).1 ≠
      .error .convFailed := by
  constructor
  · rfl
  · intro hc
    cases hc



/-- Every `insert` call either leaves the wrapper state unchanged or
returns success: mutation happens only on the ok paths. -/
theorem insertR_state_cases (s : PyDB) (name : List Nat) (v : PyVal) :
    (insertR s name v).2 = s ∨ (insertR s name v).1 = .ok () := by
  unfold insertR
  cases lookupCol name s.columns with
  | none => left; rfl
  | some t =>
    cases v with
    | vnone =>
      cases backendInsertNull s.db name with
      | ok db2 => right; rfl
      | error e => left; rfl
    | vint i =>
      simp only
      split
      · left; rfl
      · split
        · left; rfl
        · left; rfl
        · cases backendInsertVal s.db name _ with
          | ok db2 => right; rfl
          | error e => left; rfl
    | vfloat bits =>
      simp only
      split
      · left; rfl
      · split
        · left; rfl
        · left; rfl
        · cases backendInsertVal s.db name _ with
          | ok db2 => right; rfl
          | error e => left; rfl
    | vstr str =>
      simp only
      split
      · left; rfl
      · split
        · left; rfl
        · left; rfl
        · cases backendInsertVal s.db name _ with
          | ok db2 => right; rfl
          | error e => left; rfl
    | vbool b =>
      simp only
      split
      · left; rfl
      · split
        · left; rfl
        · left; rfl
        · cases backendInsertVal s.db name _ with
          | ok db2 => right; rfl
          | error e => left; rfl

/-- C2 as amended: whenever `insert` reports any error (unknown column,
failed conversion, backend rejection), the wrapper state — schema dict
and every column's cell sequence — is exactly the pre-call state, so
nothing is appended; a value of the wrong type whose Python conversion
succeeds is, however, silently coerced (see the counterexample). -/
theorem C2_insert_error_frame (s : PyDB) (name : List Nat) (v : PyVal) (e : PyErr)
    (h : (insertR s name v).1 = .error e) : (insertR s name v).2 = s := by
  rcases insertR_state_cases s name v with hq | hq
  · exact hq
  · rw [h] at hq
    cases hq

/-- Witness for C2 as amended: a non-numeric string into an INT32 column
fails the `int()` conversion and the state is untouched. -/
theorem C2_witness :
    (insertR (runOps [Op.addCol [97] 0]) [97] (.vstr [97, 98])).1 =
        .error .convFailed ∧
      (insertR (runOps [Op.addCol [97] 0]) [97] (.vstr [97, 98])).2 =
        runOps [Op.addCol [97] 0] :=
  ⟨by rfl, C2_insert_error_frame (runOps [Op.addCol [97] 0]) [97] (.vstr [97, 98])
    .convFailed (by rfl)⟩

instance {ε α : Type} [DecidableEq ε] [DecidableEq α] : DecidableEq (Except ε α)
  | .ok a, .ok b =>
    if h : a = b then .isTrue (congrArg Except.ok h)
    else .isFalse (fun hc => h (Except.ok.inj hc))
  | .error a, .error b =>
    if h : a = b then .isTrue (congrArg Except.error h)
    else .isFalse (fun hc => h (Except.error.inj hc))
  | .ok _, .error _ => .isFalse (fun hc => Except.noConfusion hc)
  | .error _, .ok _ => .isFalse (fun hc => Except.noConfusion hc)

/-- Counterexample to C3: a one-column Database (id:INT64) saved and
loaded back reports `unknown` for every type in `get_schema` — not the
schema of the Database that was saved. -/
theorem C3_counterexample :
    wrapperLoadR ((saveR (runOps [Op.addCol [105, 100] 1]) "f" (fun _ => none)).2) "f" =
      .ok ⟨[⟨[105, 100], .int64, []⟩], [], some "f"⟩ ∧
    getSchemaR (runOps [Op.addCol [105, 100] 1]) = [([105, 100], "int64")] ∧
    getSchemaR ⟨[⟨[105, 100], .int64, []⟩], [], some "f"⟩ = [([105, 100], "unknown")] ∧
    getSchemaR ⟨[⟨[105, 100], .int64, []⟩], [], some "f"⟩ ≠
      getSchemaR (runOps [Op.addCol [105, 100] 1]) :=
  ⟨by rfl, by rfl, by rfl, by decide⟩

/-- C3 as amended: a successful `load` leaves the wrapper's tracking dict
empty, so `get_schema` falls back to the backend's column names and maps
every one of them to the string `"unknown"` — the declared types are not
recovered. -/
theorem C3_loaded_schema_unknown (fs : FS) (path : String) (ld : PyDB)
    (h : wrapperLoadR fs path = .ok ld) :
    getSchemaR ld = (backendGetColumnNames ld.db).map (fun n => (n, "unknown")) := by
  unfold wrapperLoadR at h
  cases hb : backendLoadFS fs path with
  | ok b =>
    rw [hb] at h
    cases h
    simp [getSchemaR]
  | error e =>
    rw [hb] at h
    cases h

/-- Witness for C3 as amended at a concrete loaded Database. -/
theorem C3_witness :
    getSchemaR ⟨[⟨[105, 100], .int64, []⟩], [], some "f"⟩ =
      (backendGetColumnNames [⟨[105, 100], .int64, []⟩]).map (fun n => (n, "unknown")) :=
  C3_loaded_schema_unknown
    ((saveR (runOps [Op.addCol [105, 100] 1]) "f" (fun _ => none)).2) "f" _ (by rfl)

/-- Counterexample to C5: on a Database produced by `load`, `add_column`
with a name that is present in the Database but an out-of-range type
fails with the invalid-type error, not with the duplicate-column one. -/
theorem C5_counterexample :
    wrapperLoadR ((saveR (runOps [Op.addCol [105, 100] 1]) "f" (fun _ => none)).2) "f" =
      .ok ⟨[⟨[105, 100], .int64, []⟩], [], some "f"⟩ ∧
    (findCol (⟨[⟨[105, 100], .int64, []⟩], [], some "f"⟩ : PyDB).db [105, 100]).isSome = true ∧
    addColumnR ⟨[⟨[105, 100], .int64, []⟩], [], some "f"⟩ [105, 100] 99 =
      (.error (.invalidType 99), ⟨[⟨[105, 100], .int64, []⟩], [], some "f"⟩) ∧
    (addColumnR ⟨[⟨[105, 100], .int64, []⟩], [], some "f"⟩ [105, 100] 99).1 ≠
      .error (.columnExists [105, 100]) :=
  ⟨by rfl, by rfl, by rfl, by decide⟩

/-- C5 as amended: `add_column` with a name already present (in the
tracking dict or in the backend) always fails and leaves the whole state
unchanged; the error is `DuplicateColumn` when the tracking dict knows
the name, and on a loaded Database it is `InvalidType` for an
out-of-range type or the wrapped backend `DuplicateColumn` otherwise. -/
theorem C5_present_name_add_fails (s : PyDB) (name : List Nat) (t : Int)
    (h : (lookupCol name s.columns).isSome = true ∨ (findCol s.db name).isSome = true) :
    ∃ e, addColumnR s name t = (.error e, s) ∧
      (e = .columnExists name ∨ e = .invalidType t ∨ e = .addFailed .duplicateColumn) := by
  unfold addColumnR
  by_cases h1 : (lookupCol name s.columns).isSome
  · exact ⟨.columnExists name, by simp [h1], Or.inl rfl⟩
  · have h2 : (findCol s.db name).isSome = true := by
      rcases h with h | h
      · exact absurd h h1
      · exact h
    by_cases h3 : t < 0 ∨ 5 < t
    · exact ⟨.invalidType t, by simp [h1, h3], Or.inr (Or.inl rfl)⟩
    · have hdup : s.db.any (fun c => c.name = name) = true := by
        unfold findCol at h2
        rcases Option.isSome_iff_exists.mp h2 with ⟨c, hc⟩
        have hpred := List.find?_some hc
        exact List.any_eq_true.mpr ⟨c, List.mem_of_find?_eq_some hc, by simpa using hpred⟩
      refine ⟨.addFailed .duplicateColumn, ?_, Or.inr (Or.inr rfl)⟩
      simp [h1, h3, backendAddColumn, hdup]

/-- Witness for C5 as amended: a duplicate add on a one-column
in-memory Database. -/
theorem C5_witness :
    ∃ e, addColumnR (runOps [Op.addCol [97] 0]) [97] 0 =
        (.error e, runOps [Op.addCol [97] 0]) ∧
      (e = .columnExists [97] ∨ e = .invalidType 0 ∨ e = .addFailed .duplicateColumn) :=
  C5_present_name_add_fails (runOps [Op.addCol [97] 0]) [97] 0 (Or.inl (by rfl))

/-- Counterexample to C6: constructing `ColumnDB("x")` when the path `x`
does not exist raises nothing — the constructor skips the load and hands
back a fresh empty Database instead of failing with FileNotFound. -/
theorem C6_counterexample :
    ((fun _ => none : FS) "x") = none ∧
      initDB (some "x") (fun _ => none) = .ok ⟨[], [], some "x"⟩ ∧
      ∀ e, initDB (some "x") (fun _ => none) ≠ .error e :=
  ⟨rfl, by rfl, fun e h2 => by
    rw [show initDB (some "x") (fun _ => none) = .ok ⟨[], [], some "x"⟩ from by rfl] at h2
    cases h2⟩

/-- C6 as amended: on a nonexistent path the `load` classmethod fails
with the wrapped FileNotFound and returns no Database, while the
filename-taking constructor does not fail — it only attempts a load when
the file exists, and here returns a fresh empty Database. -/
theorem C6_missing_path (fs : FS) (path : String) (h : fs path = none) :
    wrapperLoadR fs path = .error (.loadFailed .fileNotFound) ∧
      initDB (some path) fs = .ok ⟨[], [], some path⟩ := by
  constructor
  · unfold wrapperLoadR backendLoadFS
    rw [h]
  · unfold initDB
    simp [h]

/-- Witness for C6 as amended on the empty file system. -/
theorem C6_witness :
    wrapperLoadR (fun _ => none) "p" = .error (.loadFailed .fileNotFound) ∧
      initDB (some "p") (fun _ => none) = .ok ⟨[], [], some "p"⟩ :=
  C6_missing_path (fun _ => none) "p" rfl

/-- Counterexample to C8: `add_column` with a duplicate name and a type
outside 0..5 fails with the duplicate-column error, not with
InvalidType — the duplicate check runs first. -/
theorem C8_counterexample :
    addColumnR (runOps [Op.addCol [97] 0]) [97] 99 =
        (.error (.columnExists [97]), runOps [Op.addCol [97] 0]) ∧
      (addColumnR (runOps [Op.addCol [97] 0]) [97] 99).1 ≠ .error (.invalidType 99) :=
  ⟨by rfl, by decide⟩

/-- Every tag in 0..5 names a DataType. -/
theorem tagToType_of_range (t : Int) (h0 : 0 ≤ t) (h5 : t ≤ 5) :
    ∃ dt, tagToType t = some dt := by
  interval_cases t <;> exact ⟨_, rfl⟩

/-- C8 as amended: for a name the tracking dict does not hold, a type
outside 0..5 makes `add_column` fail with InvalidType and add nothing,
while a type inside 0..5 on a fresh name appends one empty column at the
end of both the backend order and the tracking dict (a duplicate name
fails with DuplicateColumn before the type is examined, see the
counterexample). -/
theorem C8_addColumn_type_check (s : PyDB) (name : List Nat) (t : Int)
    (hn : lookupCol name s.columns = none) :
    ((t < 0 ∨ 5 < t) → addColumnR s name t = (.error (.invalidType t), s)) ∧
    (0 ≤ t → t ≤ 5 → findCol s.db name = none →
      ∃ dt, tagToType t = some dt ∧
        addColumnR s name t =
          (.ok (), ⟨s.db ++ [⟨name, dt, []⟩], s.columns ++ [(name, t)], s.filename⟩)) := by
  constructor
  · intro ht
    simp [addColumnR, hn, ht]
  · intro ht0 ht5 hf
    have hne : ¬(t < 0 ∨ 5 < t) := by omega
    have hdup : s.db.any (fun c => c.name = name) = false := by
      unfold findCol at hf
      have hall := List.find?_eq_none.mp hf
      rw [List.any_eq_false]
      intro x hx
      simpa using hall x hx
    obtain ⟨dt, hdt⟩ := tagToType_of_range t ht0 ht5
    refine ⟨dt, hdt, ?_⟩
    simp [addColumnR, hn, hne, backendAddColumn, hdup, hdt]

/-- Witness for C8 as amended on the empty Database: type 99 is rejected,
type 4 (STRING) creates the column. -/
theorem C8_witness :
    addColumnR ⟨[], [], none⟩ [97] 99 = (.error (.invalidType 99), ⟨[], [], none⟩) ∧
      addColumnR ⟨[], [], none⟩ [97] 4 =
        (.ok (), ⟨[⟨[97], .string, []⟩], [([97], 4)], none⟩) := by
  constructor
  · exact (C8_addColumn_type_check ⟨[], [], none⟩ [97] 99 rfl).1 (by omega)
  · obtain ⟨dt, hdt, heq⟩ :=
      (C8_addColumn_type_check ⟨[], [], none⟩ [97] 4 rfl).2 (by omega) (by omega) rfl
    rw [show tagToType 4 = some DataType.string from rfl] at hdt
    cases hdt
    exact heq
